import Mathlib

set_option maxRecDepth 40000

/-!
Shallow embedding of `src/dashboard.py` (Ted's Operations Dashboard).

The program loads a CSV of appointment records and computes four pandas
groupby aggregations (`branch_summary`, `peak_hours`, `service_breakdown`,
`daily_trend`), derives KPI extrema with `Series.idxmax`, prints three of
the tables, exports three CSV reports and renders a dashboard image.

Modelling choices, all taken from the source and pandas semantics:
* a loaded row is a `Record`; `revenue` is a rational (the CSV float),
  `appointments` an integer count, `date` an ordinal day number and
  `branch` / `service_type` the string labels;
* `df.groupby(k)` with the default `sort=True` produces one group per
  distinct key, keys sorted ascending; this is `sortedKeysOf`/`keyGroup`;
* `.round(2)` is numpy rounding (half to even) applied to the non-integer
  columns; integer count columns pass through unchanged, which the
  embedding reflects by typing them as `Nat`;
* float division by zero does not raise in pandas: `x / 0` is `nan` for
  `x = 0`, `inf` for `x > 0` and `-inf` for `x < 0`; the value type
  `PFloat` carries these markers;
* `sort_values(col, ascending=False)` computes an ascending argsort and
  reverses it (pandas `nargsort`), so it is modelled as the reverse of a
  stable ascending insertion sort;
* `Series.idxmax` scans left to right keeping the first strictly larger
  value, returning the first index attaining the maximum; on an empty
  series it raises `ValueError`;
* `pd.read_csv(path, parse_dates=["date"])` raises `FileNotFoundError`
  when the file is absent and `ValueError` when the `date` column named in
  `parse_dates` is missing from the header; it performs no validation of
  the other columns (a missing `branch` column or a malformed numeric cell
  loads without error and only fails in later aggregation);
* the orchestrator (`__main__` together with `export_csv_reports` and
  `generate_dashboard`) is modelled by its trace of observable effects,
  `mainEvents`.
-/

/-- One input row, as loaded from the CSV (`date`, `branch`, `hour`,
`appointments`, `revenue`, `service_type`). -/
structure Record where
  date : Nat
  branch : String
  hour : Nat
  appointments : Nat
  revenue : ℚ
  service_type : String
deriving DecidableEq, Repr

/-- Python exception classes that the relevant pandas calls can raise,
together with the two classes named by the specification
(`DataLoadError`, `EmptyDatasetError`); the repository itself defines
neither of the latter, so no code path of the model produces them. -/
inductive PyError where
  | valueError
  | fileNotFoundError
  | dataLoadError
  | emptyDatasetError
deriving DecidableEq, Repr

instance {ε α : Type} [DecidableEq ε] [DecidableEq α] : DecidableEq (Except ε α)
  | .ok x, .ok y => decidable_of_iff (x = y) (by simp)
  | .error e, .error f => decidable_of_iff (e = f) (by simp)
  | .ok _, .error _ => isFalse (fun h => Except.noConfusion h)
  | .error _, .ok _ => isFalse (fun h => Except.noConfusion h)

/-- A pandas float value: a finite rational, `nan`, `inf` or `-inf`. -/
inductive PFloat where
  | num (q : ℚ)
  | nan
  | inf
  | ninf
deriving DecidableEq, Repr

/-- numpy rounding of a rational to the nearest integer, halves to the
even neighbour (the mode used by `DataFrame.round`); stated with
`Rat.floor` so that it evaluates by kernel reduction. -/
def roundHalfEven (q : ℚ) : ℤ :=
  if q - q.floor < 1/2 then q.floor
  else if 1/2 < q - q.floor then q.floor + 1
  else if q.floor % 2 = 0 then q.floor else q.floor + 1

/-- `.round(2)`: round to two decimal places. -/
def round2 (q : ℚ) : ℚ :=
  (roundHalfEven (q * 100) : ℚ) / 100

/-- `.round(2)` on a pandas float: `nan` and the infinities round to
themselves. -/
def PFloat.roundTwo : PFloat → PFloat
  | .num q => .num (round2 q)
  | .nan => .nan
  | .inf => .inf
  | .ninf => .ninf

/-- Pandas float division of a rational by an integer count:
division by zero yields `nan` / `inf` / `-inf` instead of raising. -/
def pdivNat (x : ℚ) (n : Nat) : PFloat :=
  if n = 0 then (if x = 0 then .nan else if 0 < x then .inf else .ninf)
  else .num (x / n)

/-- The rows of `df` whose `k`-column equals `x`: one `groupby` group. -/
def keyGroup {κ : Type} [DecidableEq κ] (k : Record → κ) (rs : List Record) (x : κ) :
    List Record :=
  rs.filter (fun r => decide (k r = x))

/-- Python string comparison (code-point lexicographic, the order pandas
uses to sort string group keys), stated on the character lists so that it
evaluates by kernel reduction; `labelLe_iff_le` identifies it with
Lean's `String` order. -/
def labelLe (s t : String) : Prop := s.data ≤ t.data

instance : DecidableRel labelLe :=
  fun s t => inferInstanceAs (Decidable (s.data ≤ t.data))

/-- Strict Python string comparison; see `labelLe`. -/
def labelLt (s t : String) : Prop := s.data < t.data

instance : DecidableRel labelLt :=
  fun s t => inferInstanceAs (Decidable (s.data < t.data))

/-- Ascending order on integer group keys (hours, date ordinals). -/
def natLe (a b : Nat) : Prop := a ≤ b

instance : DecidableRel natLe := fun a b => Nat.decLe a b

/-- The distinct values of the `k`-column, sorted ascending by `le`: the
index of a `groupby(k)` result (default `sort=True`). -/
def sortedKeysOf {κ : Type} [DecidableEq κ] (le : κ → κ → Prop) [DecidableRel le]
    (k : Record → κ) (rs : List Record) : List κ :=
  List.insertionSort le ((rs.map k).dedup)

/-- Sum of the `revenue` column over a group. -/
def sumRev (g : List Record) : ℚ := (g.map Record.revenue).sum

/-- Sum of the `appointments` column over a group. -/
def sumApp (g : List Record) : Nat := (g.map Record.appointments).sum

/-- Mean of the `revenue` column over a group. -/
def meanRev (g : List Record) : ℚ := sumRev g / g.length

/-- Mean of the `appointments` column over a group. -/
def meanApp (g : List Record) : ℚ := (sumApp g : ℚ) / g.length

/-- One row of the Branch Summary table (`branch_summary`). -/
structure BranchRow where
  branch : String
  total_appointments : Nat
  total_revenue : ℚ
  avg_daily_revenue : ℚ
  revenue_per_appointment : PFloat
deriving DecidableEq, Repr

/-- The aggregated (not yet revenue-sorted) Branch Summary row for branch
`b`: sums and mean from `.agg`, then `.round(2)` on the float columns,
then the `revenue_per_appointment` ratio computed from the already
rounded `total_revenue` and rounded again. -/
def branchAggRow (rs : List Record) (b : String) : BranchRow :=
  { branch := b
    total_appointments := sumApp (keyGroup Record.branch rs b)
    total_revenue := round2 (sumRev (keyGroup Record.branch rs b))
    avg_daily_revenue := round2 (meanRev (keyGroup Record.branch rs b))
    revenue_per_appointment :=
      (pdivNat (round2 (sumRev (keyGroup Record.branch rs b)))
        (sumApp (keyGroup Record.branch rs b))).roundTwo }

/-- Comparison used by `sort_values("total_revenue")` on the Branch
Summary. -/
def revLe (a b : BranchRow) : Prop := a.total_revenue ≤ b.total_revenue

instance : DecidableRel revLe :=
  fun a b => inferInstanceAs (Decidable (a.total_revenue ≤ b.total_revenue))

/-- `branch_summary(df)`: group by branch, aggregate, round, derive the
ratio, then `sort_values("total_revenue", ascending=False)` (modelled as
the reverse of a stable ascending sort, following pandas `nargsort`). -/
def branch_summary (rs : List Record) : List BranchRow :=
  (List.insertionSort revLe ((sortedKeysOf labelLe Record.branch rs).map (branchAggRow rs))).reverse

/-- One row of the Peak Hours table (`peak_hours`). -/
structure HourRow where
  hour : Nat
  avg_appointments : ℚ
  avg_revenue : ℚ
deriving DecidableEq, Repr

/-- The Peak Hours row for hour `h`: per-group means, rounded. -/
def hourAggRow (rs : List Record) (h : Nat) : HourRow :=
  { hour := h
    avg_appointments := round2 (meanApp (keyGroup Record.hour rs h))
    avg_revenue := round2 (meanRev (keyGroup Record.hour rs h)) }

/-- `peak_hours(df)`: group by hour, mean appointments and revenue,
rounded; the groupby leaves the table ascending by hour. -/
def peak_hours (rs : List Record) : List HourRow :=
  (sortedKeysOf natLe Record.hour rs).map (hourAggRow rs)

/-- One row of the Service Breakdown table (`service_breakdown`). -/
structure ServiceRow where
  service_type : String
  total_revenue : ℚ
  total_appointments : Nat
deriving DecidableEq, Repr

/-- The Service Breakdown row for service `s`: plain sums, no rounding
(the source applies no `.round` here). -/
def serviceAggRow (rs : List Record) (s : String) : ServiceRow :=
  { service_type := s
    total_revenue := sumRev (keyGroup Record.service_type rs s)
    total_appointments := sumApp (keyGroup Record.service_type rs s) }

/-- Comparison used by `sort_values("total_revenue")` on the Service
Breakdown. -/
def srvLe (a b : ServiceRow) : Prop := a.total_revenue ≤ b.total_revenue

instance : DecidableRel srvLe :=
  fun a b => inferInstanceAs (Decidable (a.total_revenue ≤ b.total_revenue))

/-- `service_breakdown(df)`: group by service type, sum revenue and
appointments, sort descending by total revenue; no rounding. -/
def service_breakdown (rs : List Record) : List ServiceRow :=
  (List.insertionSort srvLe ((sortedKeysOf labelLe Record.service_type rs).map (serviceAggRow rs))).reverse

/-- One row of the Daily Trend table (`daily_trend`). -/
structure DayRow where
  date : Nat
  daily_revenue : ℚ
  daily_appointments : Nat
deriving DecidableEq, Repr

/-- The Daily Trend row for date `d`: plain sums, no rounding. -/
def dayAggRow (rs : List Record) (d : Nat) : DayRow :=
  { date := d
    daily_revenue := sumRev (keyGroup Record.date rs d)
    daily_appointments := sumApp (keyGroup Record.date rs d) }

/-- `daily_trend(df)`: group by date, sum revenue and appointments; the
groupby leaves the table ascending by date. -/
def daily_trend (rs : List Record) : List DayRow :=
  (sortedKeysOf natLe Record.date rs).map (dayAggRow rs)

/-- The scan of `Series.idxmax`: keep the first entry, replacing it only
on a strictly larger value, so the first occurrence of the maximum wins. -/
def idxmaxGo {κ : Type} (best : κ × ℚ) : List (κ × ℚ) → κ × ℚ
  | [] => best
  | y :: ys => idxmaxGo (if best.2 < y.2 then y else best) ys

/-- `Series.idxmax`: the index label of the first maximal value; raises
`ValueError` on an empty series. -/
def idxmax {κ : Type} : List (κ × ℚ) → Except PyError κ
  | [] => Except.error PyError.valueError
  | x :: xs => Except.ok (idxmaxGo x xs).1

/-- `branch_summary(df)["total_revenue"].idxmax()` from
`generate_dashboard`. -/
def best_branch (rs : List Record) : Except PyError String :=
  idxmax ((branch_summary rs).map (fun row => (row.branch, row.total_revenue)))

/-- `peak_hours(df)["avg_appointments"].idxmax()` from
`generate_dashboard`. -/
def peak_hour (rs : List Record) : Except PyError Nat :=
  idxmax ((peak_hours rs).map (fun row => (row.hour, row.avg_appointments)))

/-- A parsed delimited input file: header row plus data rows of cells. -/
structure CSV where
  header : List String
  rows : List (List String)
deriving DecidableEq, Repr

/-- `load_data(filepath)` = `pd.read_csv(filepath, parse_dates=["date"])`.
The file argument is `none` when no file exists at the path.
`read_csv` raises `FileNotFoundError` for an absent file and `ValueError`
when the column named in `parse_dates` is missing from the header; it
validates nothing else, so a file missing other required columns or
holding malformed cells loads successfully. -/
def load_data (file : Option CSV) : Except PyError CSV :=
  match file with
  | none => Except.error PyError.fileNotFoundError
  | some csv =>
      if "date" ∈ csv.header then Except.ok csv
      else Except.error PyError.valueError

/-- The four aggregate tables, used to tag console and file outputs. -/
inductive TableId where
  | branchSummaryT
  | peakHoursT
  | serviceBreakdownT
  | dailyTrendT
deriving DecidableEq, Repr

/-- Observable effects of a successful run of the orchestrator. -/
inductive Event where
  | loadConfirm
  | printTable (t : TableId)
  | writeCSV (t : TableId)
  | exportConfirm
  | saveImage
  | showWindow
deriving DecidableEq, Repr

/-- Whether an event prints an aggregate table to the console. -/
def Event.isPrint : Event → Bool
  | .printTable _ => true
  | _ => false

/-- Whether an event writes a CSV report file. -/
def Event.isWrite : Event → Bool
  | .writeCSV _ => true
  | _ => false

/-- Trace of `load_data`: the record-count confirmation line. -/
def loadEvents : List Event := [Event.loadConfirm]

/-- Trace of the `__main__` console preview: the three printed tables
(`branch_summary`, `peak_hours`, `service_breakdown`). -/
def consoleEvents : List Event :=
  [Event.printTable TableId.branchSummaryT,
   Event.printTable TableId.peakHoursT,
   Event.printTable TableId.serviceBreakdownT]

/-- Trace of `export_csv_reports`: three CSV files then the export
confirmation line. -/
def exportEvents : List Event :=
  [Event.writeCSV TableId.branchSummaryT,
   Event.writeCSV TableId.peakHoursT,
   Event.writeCSV TableId.serviceBreakdownT,
   Event.exportConfirm]

/-- Trace of `generate_dashboard`: save the image, then `plt.show()`. -/
def renderEvents : List Event := [Event.saveImage, Event.showWindow]

/-- Trace of a successful `__main__` run:
load, console preview, CSV export, dashboard render. -/
def mainEvents : List Event :=
  loadEvents ++ consoleEvents ++ exportEvents ++ renderEvents

/-! ### Concrete inputs used by witnesses and counterexamples -/

/-- A concrete record: branch A, hour 9, 2 appointments, revenue 100. -/
def wrecA : Record :=
  { date := 1, branch := "A", hour := 9, appointments := 2, revenue := 100, service_type := "X" }

/-- A concrete record: branch B, hour 14, 3 appointments, revenue 50. -/
def wrecB : Record :=
  { date := 2, branch := "B", hour := 14, appointments := 3, revenue := 50, service_type := "Y" }

/-- A record with zero appointments but positive revenue. -/
def c3rec : Record :=
  { date := 1, branch := "A", hour := 9, appointments := 0, revenue := 100, service_type := "X" }

/-- A branch-B record whose revenue ties `wrecA`. -/
def c5recB : Record :=
  { date := 1, branch := "B", hour := 10, appointments := 3, revenue := 100, service_type := "X" }

/-- A record whose revenue is not a two-decimal quantity. -/
def c6rec : Record :=
  { date := 1, branch := "A", hour := 9, appointments := 2, revenue := 3/1000, service_type := "X" }

/-- A parsed file that has a `date` column but no `branch` column. -/
def c8csv : CSV := { header := ["date", "hour"], rows := [["2024-01-01", "9"]] }

/-! ### Properties of the rounding function -/

/-- `Rat.floor` agrees with the `FloorRing` floor. -/
theorem ratFloor_eq (q : ℚ) : q.floor = ⌊q⌋ := by
  rw [Rat.floor_def', Rat.floor_def]

/-- Half-to-even rounding moves a value by at most one half. -/
theorem abs_roundHalfEven_sub_le (q : ℚ) : |(roundHalfEven q : ℚ) - q| ≤ 1/2 := by
  have hcast : ((q.floor : ℤ) : ℚ) = ((⌊q⌋ : ℤ) : ℚ) := by rw [ratFloor_eq]
  have h1 : ((⌊q⌋ : ℤ) : ℚ) ≤ q := Int.floor_le q
  have h2 : q < ((⌊q⌋ : ℤ) : ℚ) + 1 := Int.lt_floor_add_one q
  unfold roundHalfEven
  split_ifs with hlt hgt heven
  · rw [hcast] at hlt ⊢
    rw [abs_le]
    constructor <;> linarith
  · rw [hcast] at hlt hgt
    rw [abs_le, Int.cast_add, Int.cast_one, hcast]
    constructor <;> linarith
  · rw [hcast] at hlt hgt ⊢
    rw [abs_le]
    constructor <;> linarith
  · rw [hcast] at hlt hgt
    rw [abs_le, Int.cast_add, Int.cast_one, hcast]
    constructor <;> linarith

/-- Integers round to themselves. -/
theorem roundHalfEven_intCast (n : ℤ) : roundHalfEven (n : ℚ) = n := by
  have h : ((n : ℚ)).floor = n := by rw [ratFloor_eq]; exact Int.floor_intCast n
  unfold roundHalfEven
  rw [h, sub_self]
  norm_num

/-- Rounding preserves nonnegativity. -/
theorem roundHalfEven_nonneg {q : ℚ} (h : 0 ≤ q) : 0 ≤ roundHalfEven q := by
  have hfl : 0 ≤ q.floor := by rw [ratFloor_eq]; exact Int.floor_nonneg.mpr h
  unfold roundHalfEven
  split_ifs <;> omega

/-- Two-decimal rounding moves a value by at most `1/200`. -/
theorem abs_round2_sub_le (q : ℚ) : |round2 q - q| ≤ 1/200 := by
  have h := abs_roundHalfEven_sub_le (q * 100)
  have h2 : round2 q - q = ((roundHalfEven (q * 100) : ℚ) - q * 100) / 100 := by
    unfold round2; ring
  rw [h2, abs_div, abs_of_pos (by norm_num : (0:ℚ) < 100)]
  linarith [abs_nonneg ((roundHalfEven (q * 100) : ℚ) - q * 100)]

/-- Two-decimal rounding is idempotent. -/
theorem round2_round2 (q : ℚ) : round2 (round2 q) = round2 q := by
  unfold round2
  rw [div_mul_cancel₀ _ (by norm_num : (100:ℚ) ≠ 0), roundHalfEven_intCast]

/-- Two-decimal rounding preserves nonnegativity. -/
theorem round2_nonneg {q : ℚ} (h : 0 ≤ q) : 0 ≤ round2 q := by
  unfold round2
  have h1 : 0 ≤ roundHalfEven (q * 100) := roundHalfEven_nonneg (by positivity)
  have h2 : (0:ℚ) ≤ (roundHalfEven (q * 100) : ℚ) := by exact_mod_cast h1
  positivity

/-! ### Grouping sums partition the input -/

/-- Summing an indicator over a duplicate-free key list that contains the
key yields the single value. -/
theorem sum_map_single_key {κ M : Type} [DecidableEq κ] [AddCommMonoid M]
    (x : κ) (m : M) (ks : List κ) (hnd : ks.Nodup) (hmem : x ∈ ks) :
    (ks.map (fun b => if x = b then m else 0)).sum = m := by
  induction ks with
  | nil => cases hmem
  | cons b bs ih =>
    rcases List.mem_cons.mp hmem with h | h
    · subst h
      have hz : (List.map (fun b => if x = b then m else 0) bs).sum = 0 := by
        apply List.sum_eq_zero
        intro y hy
        rcases List.mem_map.mp hy with ⟨c, hc, rfl⟩
        refine if_neg (fun he => ?_)
        rw [← he] at hc
        exact (List.nodup_cons.mp hnd).1 hc
      rw [List.map_cons, List.sum_cons, if_pos rfl, hz, add_zero]
    · have hxb : x ≠ b := by
        intro he
        rw [he] at h
        exact (List.nodup_cons.mp hnd).1 h
      simp only [List.map_cons, List.sum_cons, if_neg hxb, zero_add]
      exact ih (List.nodup_cons.mp hnd).2 h

/-- The per-group sums over a duplicate-free key list covering every
record add up to the whole-input sum: grouping partitions the records. -/
theorem sum_map_keyGroup {κ M : Type} [DecidableEq κ] [AddCommMonoid M]
    (k : Record → κ) (f : Record → M) (ks : List κ) (rs : List Record)
    (hnd : ks.Nodup) (hcov : ∀ r ∈ rs, k r ∈ ks) :
    (ks.map (fun b => ((keyGroup k rs b).map f).sum)).sum = (rs.map f).sum := by
  induction rs with
  | nil =>
    simp only [List.map_nil, List.sum_nil]
    apply List.sum_eq_zero
    intro y hy
    rcases List.mem_map.mp hy with ⟨c, _, rfl⟩
    simp [keyGroup]
  | cons r rs ih =>
    have hsum : ∀ b ∈ ks, ((keyGroup k (r :: rs) b).map f).sum
        = (if k r = b then f r else 0) + ((keyGroup k rs b).map f).sum := by
      intro b _
      by_cases h : k r = b
      · simp [keyGroup, List.filter_cons, h]
      · simp [keyGroup, List.filter_cons, h]
    rw [List.map_congr_left hsum, List.sum_map_add,
      sum_map_single_key (k r) (f r) ks hnd (hcov r (List.mem_cons_self r rs)),
      ih (fun x hx => hcov x (List.mem_cons_of_mem r hx))]
    simp

/-! ### Order facts for the key relations -/

instance : IsTotal String labelLe := ⟨fun s t => le_total s.data t.data⟩

instance : IsTrans String labelLe := ⟨fun _ _ _ h1 h2 => le_trans h1 h2⟩

instance : IsTotal Nat natLe := ⟨Nat.le_total⟩

instance : IsTrans Nat natLe := ⟨fun _ _ _ => Nat.le_trans⟩

instance : IsTotal BranchRow revLe := ⟨fun a b => le_total a.total_revenue b.total_revenue⟩

instance : IsTrans BranchRow revLe := ⟨fun _ _ _ h1 h2 => le_trans h1 h2⟩

instance : IsTotal ServiceRow srvLe := ⟨fun a b => le_total a.total_revenue b.total_revenue⟩

instance : IsTrans ServiceRow srvLe := ⟨fun _ _ _ h1 h2 => le_trans h1 h2⟩

/-- Distinct strings have distinct character lists. -/
theorem data_ne_of_ne {s t : String} (h : s ≠ t) : s.data ≠ t.data := by
  intro he
  apply h
  cases s
  cases t
  exact congrArg String.mk he

/-- A weak order together with distinctness gives the strict order. -/
theorem pairwise_strict_of_sorted_nodup {κ : Type} {le lt : κ → κ → Prop} {l : List κ}
    (hs : l.Pairwise le) (hn : l.Pairwise (fun a b => a ≠ b))
    (h : ∀ a b, le a b → a ≠ b → lt a b) : l.Pairwise lt :=
  (hs.and hn).imp (fun hab => h _ _ hab.1 hab.2)

/-! ### Each table is a permutation of the rows built over the distinct keys -/

/-- The sorted key list is a permutation of the distinct column values. -/
theorem sortedKeysOf_perm {κ : Type} [DecidableEq κ] (le : κ → κ → Prop) [DecidableRel le]
    (k : Record → κ) (rs : List Record) :
    (sortedKeysOf le k rs).Perm ((rs.map k).dedup) :=
  List.perm_insertionSort le _

/-- The sorted key list has no duplicates. -/
theorem sortedKeysOf_nodup {κ : Type} [DecidableEq κ] (le : κ → κ → Prop) [DecidableRel le]
    (k : Record → κ) (rs : List Record) : (sortedKeysOf le k rs).Nodup :=
  ((sortedKeysOf_perm le k rs).nodup_iff).mpr (List.nodup_dedup _)

/-- The Branch Summary is a permutation of the aggregate rows over the
distinct branches. -/
theorem branch_summary_perm (rs : List Record) :
    (branch_summary rs).Perm (((rs.map Record.branch).dedup).map (branchAggRow rs)) := by
  unfold branch_summary
  exact ((List.reverse_perm _).trans (List.perm_insertionSort revLe _)).trans
    ((sortedKeysOf_perm labelLe Record.branch rs).map (branchAggRow rs))

/-- The Peak Hours table is a permutation of the aggregate rows over the
distinct hours. -/
theorem peak_hours_perm (rs : List Record) :
    (peak_hours rs).Perm (((rs.map Record.hour).dedup).map (hourAggRow rs)) :=
  (sortedKeysOf_perm natLe Record.hour rs).map (hourAggRow rs)

/-- The Service Breakdown is a permutation of the aggregate rows over the
distinct service types. -/
theorem service_breakdown_perm (rs : List Record) :
    (service_breakdown rs).Perm (((rs.map Record.service_type).dedup).map (serviceAggRow rs)) := by
  unfold service_breakdown
  exact ((List.reverse_perm _).trans (List.perm_insertionSort srvLe _)).trans
    ((sortedKeysOf_perm labelLe Record.service_type rs).map (serviceAggRow rs))

/-- The Daily Trend is a permutation of the aggregate rows over the
distinct dates. -/
theorem daily_trend_perm (rs : List Record) :
    (daily_trend rs).Perm (((rs.map Record.date).dedup).map (dayAggRow rs)) :=
  (sortedKeysOf_perm natLe Record.date rs).map (dayAggRow rs)

/-- The branch labels of the Branch Summary are a permutation of the
distinct branch labels of the input. -/
theorem branch_summary_keys_perm (rs : List Record) :
    ((branch_summary rs).map BranchRow.branch).Perm ((rs.map Record.branch).dedup) := by
  have h := (branch_summary_perm rs).map BranchRow.branch
  rwa [List.map_map, show BranchRow.branch ∘ branchAggRow rs = id from funext (fun _ => rfl),
    List.map_id] at h

/-- The hours of the Peak Hours table are a permutation of the distinct
hours of the input. -/
theorem peak_hours_keys_perm (rs : List Record) :
    ((peak_hours rs).map HourRow.hour).Perm ((rs.map Record.hour).dedup) := by
  have h := (peak_hours_perm rs).map HourRow.hour
  rwa [List.map_map, show HourRow.hour ∘ hourAggRow rs = id from funext (fun _ => rfl),
    List.map_id] at h

/-- The service types of the Service Breakdown are a permutation of the
distinct service types of the input. -/
theorem service_breakdown_keys_perm (rs : List Record) :
    ((service_breakdown rs).map ServiceRow.service_type).Perm
      ((rs.map Record.service_type).dedup) := by
  have h := (service_breakdown_perm rs).map ServiceRow.service_type
  rwa [List.map_map,
    show ServiceRow.service_type ∘ serviceAggRow rs = id from funext (fun _ => rfl),
    List.map_id] at h

/-- The dates of the Daily Trend are a permutation of the distinct dates
of the input. -/
theorem daily_trend_keys_perm (rs : List Record) :
    ((daily_trend rs).map DayRow.date).Perm ((rs.map Record.date).dedup) := by
  have h := (daily_trend_perm rs).map DayRow.date
  rwa [List.map_map, show DayRow.date ∘ dayAggRow rs = id from funext (fun _ => rfl),
    List.map_id] at h

/-! ### Membership: every table row is the aggregate of its own group -/

/-- Any Branch Summary row is the aggregate row of its own branch, and
its branch occurs in the input. -/
theorem mem_branch_summary {rs : List Record} {row : BranchRow}
    (h : row ∈ branch_summary rs) :
    row = branchAggRow rs row.branch ∧ row.branch ∈ rs.map Record.branch := by
  have h2 := (branch_summary_perm rs).mem_iff.mp h
  rcases List.mem_map.mp h2 with ⟨b, hb, rfl⟩
  exact ⟨rfl, List.mem_dedup.mp hb⟩

/-- Any Peak Hours row is the aggregate row of its own hour, and its hour
occurs in the input. -/
theorem mem_peak_hours {rs : List Record} {row : HourRow}
    (h : row ∈ peak_hours rs) :
    row = hourAggRow rs row.hour ∧ row.hour ∈ rs.map Record.hour := by
  have h2 := (peak_hours_perm rs).mem_iff.mp h
  rcases List.mem_map.mp h2 with ⟨b, hb, rfl⟩
  exact ⟨rfl, List.mem_dedup.mp hb⟩

/-- Any Service Breakdown row is the aggregate row of its own service
type, and its service type occurs in the input. -/
theorem mem_service_breakdown {rs : List Record} {row : ServiceRow}
    (h : row ∈ service_breakdown rs) :
    row = serviceAggRow rs row.service_type ∧ row.service_type ∈ rs.map Record.service_type := by
  have h2 := (service_breakdown_perm rs).mem_iff.mp h
  rcases List.mem_map.mp h2 with ⟨b, hb, rfl⟩
  exact ⟨rfl, List.mem_dedup.mp hb⟩

/-- Any Daily Trend row is the aggregate row of its own date, and its
date occurs in the input. -/
theorem mem_daily_trend {rs : List Record} {row : DayRow}
    (h : row ∈ daily_trend rs) :
    row = dayAggRow rs row.date ∧ row.date ∈ rs.map Record.date := by
  have h2 := (daily_trend_perm rs).mem_iff.mp h
  rcases List.mem_map.mp h2 with ⟨b, hb, rfl⟩
  exact ⟨rfl, List.mem_dedup.mp hb⟩

/-! ### Ascending tables -/

/-- The Peak Hours table is strictly ascending by hour. -/
theorem peak_hours_pairwise (rs : List Record) :
    (peak_hours rs).Pairwise (fun a b => a.hour < b.hour) := by
  unfold peak_hours
  rw [List.pairwise_map]
  exact pairwise_strict_of_sorted_nodup
    (List.sorted_insertionSort natLe _) (sortedKeysOf_nodup natLe Record.hour rs)
    (fun a b hle hne => Nat.lt_of_le_of_ne hle hne)

/-- The Daily Trend table is strictly ascending by date. -/
theorem daily_trend_pairwise (rs : List Record) :
    (daily_trend rs).Pairwise (fun a b => a.date < b.date) := by
  unfold daily_trend
  rw [List.pairwise_map]
  exact pairwise_strict_of_sorted_nodup
    (List.sorted_insertionSort natLe _) (sortedKeysOf_nodup natLe Record.date rs)
    (fun a b hle hne => Nat.lt_of_le_of_ne hle hne)

/-! ### Order of the revenue-sorted Branch Summary -/

/-- Ascending order produced by the stable ascending sort underlying
`sort_values("total_revenue", ascending=False)`: revenue ascending, with
equal revenues kept in the groupby's ascending-label order. -/
def lexAsc (a b : BranchRow) : Prop :=
  a.total_revenue < b.total_revenue ∨
    (a.total_revenue = b.total_revenue ∧ labelLt a.branch b.branch)

/-- `lexAsc` is transitive. -/
theorem lexAsc_trans {a b c : BranchRow} (h1 : lexAsc a b) (h2 : lexAsc b c) : lexAsc a c := by
  rcases h1 with h1 | ⟨h1e, h1l⟩
  · rcases h2 with h2 | ⟨h2e, _⟩
    · exact Or.inl (lt_trans h1 h2)
    · exact Or.inl (h2e ▸ h1)
  · rcases h2 with h2 | ⟨h2e, h2l⟩
    · exact Or.inl (h1e ▸ h2)
    · exact Or.inr ⟨h1e.trans h2e, lt_trans h1l h2l⟩

/-- Inserting a row whose label is below every label of a `lexAsc`-sorted
list, by revenue only, keeps the list `lexAsc`-sorted: this is where the
stability of the ascending sort shows. -/
theorem orderedInsert_lexAsc (a : BranchRow) (l : List BranchRow)
    (hs : l.Pairwise lexAsc) (hb : ∀ b ∈ l, labelLt a.branch b.branch) :
    (List.orderedInsert revLe a l).Pairwise lexAsc := by
  induction l with
  | nil => simp
  | cons b t ih =>
    rcases List.pairwise_cons.mp hs with ⟨hbt, ht⟩
    rw [List.orderedInsert]
    by_cases hab : revLe a b
    · rw [if_pos hab]
      have hlex : lexAsc a b := by
        rcases lt_or_eq_of_le hab with h | h
        · exact Or.inl h
        · exact Or.inr ⟨h, hb b (List.mem_cons_self b t)⟩
      refine List.pairwise_cons.mpr ⟨?_, hs⟩
      intro y hy
      rcases List.mem_cons.mp hy with rfl | hy'
      · exact hlex
      · exact lexAsc_trans hlex (hbt y hy')
    · rw [if_neg hab]
      have hba : b.total_revenue < a.total_revenue := lt_of_not_le hab
      refine List.pairwise_cons.mpr ⟨?_, ih ht (fun c hc => hb c (List.mem_cons_of_mem b hc))⟩
      intro y hy
      rcases (List.mem_orderedInsert revLe).mp hy with rfl | hy'
      · exact Or.inl hba
      · exact hbt y hy'

/-- The stable ascending sort of a list whose labels strictly ascend is
`lexAsc`-sorted. -/
theorem insertionSort_lexAsc (l : List BranchRow)
    (h : l.Pairwise (fun x y => labelLt x.branch y.branch)) :
    (List.insertionSort revLe l).Pairwise lexAsc := by
  induction l with
  | nil => simp
  | cons a t ih =>
    rcases List.pairwise_cons.mp h with ⟨hat, ht⟩
    rw [List.insertionSort]
    refine orderedInsert_lexAsc a _ (ih ht) ?_
    intro b hb
    exact hat b ((List.perm_insertionSort revLe t).mem_iff.mp hb)

/-- The aggregate rows of the Branch Summary, in groupby order, have
strictly ascending branch labels. -/
theorem branch_rows_labels_pairwise (rs : List Record) :
    ((sortedKeysOf labelLe Record.branch rs).map (branchAggRow rs)).Pairwise
      (fun x y => labelLt x.branch y.branch) := by
  rw [List.pairwise_map]
  exact pairwise_strict_of_sorted_nodup
    (List.sorted_insertionSort labelLe _) (sortedKeysOf_nodup labelLe Record.branch rs)
    (fun a b hle hne => lt_of_le_of_ne hle (data_ne_of_ne hne))

/-- The Branch Summary is descending by total revenue; rows with equal
total revenue appear in descending branch-label order (the reversal of
the stable ascending sort). -/
theorem branch_summary_pairwise (rs : List Record) :
    (branch_summary rs).Pairwise (fun a b =>
      b.total_revenue ≤ a.total_revenue ∧
      (a.total_revenue = b.total_revenue → labelLt b.branch a.branch)) := by
  unfold branch_summary
  rw [List.pairwise_reverse]
  refine (insertionSort_lexAsc _ (branch_rows_labels_pairwise rs)).imp ?_
  intro a b hab
  rcases hab with h | ⟨he, hl⟩
  · exact ⟨le_of_lt h, fun heq => absurd (heq ▸ h) (lt_irrefl _)⟩
  · exact ⟨le_of_eq he, fun _ => hl⟩

/-! ### The idxmax scan -/

/-- If the seed already dominates the list, the scan keeps the seed:
`idxmax` ties resolve to the earliest position. -/
theorem idxmaxGo_of_max {κ : Type} (best : κ × ℚ) (l : List (κ × ℚ))
    (h : ∀ y ∈ l, y.2 ≤ best.2) : idxmaxGo best l = best := by
  induction l with
  | nil => rfl
  | cons y ys ih =>
    simp only [idxmaxGo]
    rw [if_neg (not_lt.mpr (h y (List.mem_cons_self y ys)))]
    exact ih (fun z hz => h z (List.mem_cons_of_mem y hz))

/-- On a series whose index strictly ascends, the `idxmax` scan returns
an entry of the series that attains the maximum value, and every entry
tying that maximum has an index at least as large. -/
theorem idxmaxGo_spec {κ : Type} [LinearOrder κ] (l : List (κ × ℚ)) (best : κ × ℚ)
    (hkeys : (best :: l).Pairwise (fun a b => a.1 < b.1)) :
    idxmaxGo best l ∈ best :: l ∧
    (∀ y ∈ best :: l, y.2 ≤ (idxmaxGo best l).2) ∧
    (∀ y ∈ best :: l, y.2 = (idxmaxGo best l).2 → (idxmaxGo best l).1 ≤ y.1) := by
  induction l generalizing best with
  | nil =>
    refine ⟨List.mem_cons_self best [], ?_, ?_⟩
    · intro z hz
      rcases List.mem_cons.mp hz with rfl | hz'
      · exact le_refl _
      · cases hz'
    · intro z hz _
      rcases List.mem_cons.mp hz with rfl | hz'
      · exact le_refl _
      · cases hz'
  | cons y ys ih =>
    rcases List.pairwise_cons.mp hkeys with ⟨hby, hyys⟩
    rcases List.pairwise_cons.mp hyys with ⟨hyz, hys⟩
    by_cases hc : best.2 < y.2
    · rcases ih y hyys with ⟨hmem, hmax, htie⟩
      simp only [idxmaxGo, if_pos hc]
      refine ⟨?_, ?_, ?_⟩
      · exact List.mem_cons_of_mem best hmem
      · intro z hz
        rcases List.mem_cons.mp hz with rfl | hz'
        · exact le_trans (le_of_lt hc) (hmax y (List.mem_cons_self y ys))
        · exact hmax z hz'
      · intro z hz heq
        rcases List.mem_cons.mp hz with rfl | hz'
        · exact absurd (lt_of_lt_of_le hc (hmax y (List.mem_cons_self y ys)))
            (by rw [heq]; exact lt_irrefl _)
        · exact htie z hz' heq
    · have hkeys' : (best :: ys).Pairwise (fun a b => a.1 < b.1) :=
        List.pairwise_cons.mpr ⟨fun z hz => hby z (List.mem_cons_of_mem y hz), hys⟩
      rcases ih best hkeys' with ⟨hmem, hmax, htie⟩
      simp only [idxmaxGo, if_neg hc]
      refine ⟨?_, ?_, ?_⟩
      · rcases List.mem_cons.mp hmem with h | h
        · rw [h]; exact List.mem_cons_self best _
        · exact List.mem_cons_of_mem best (List.mem_cons_of_mem y h)
      · intro z hz
        rcases List.mem_cons.mp hz with rfl | hz'
        · exact hmax z (List.mem_cons_self z ys)
        · rcases List.mem_cons.mp hz' with rfl | hz''
          · exact le_trans (not_lt.mp hc) (hmax best (List.mem_cons_self best ys))
          · exact hmax z (List.mem_cons_of_mem best hz'')
      · intro z hz heq
        rcases List.mem_cons.mp hz with rfl | hz'
        · exact htie z (List.mem_cons_self z ys) heq
        · rcases List.mem_cons.mp hz' with rfl | hz''
          · have h1 : z.2 ≤ best.2 := not_lt.mp hc
            have h2 : best.2 ≤ (idxmaxGo best ys).2 := hmax best (List.mem_cons_self best ys)
            have h3 : best.2 = (idxmaxGo best ys).2 := le_antisymm h2 (heq ▸ h1)
            have h4 := htie best (List.mem_cons_self best ys) h3
            exact le_of_lt (lt_of_le_of_lt h4 (hby z (List.mem_cons_self z ys)))
          · exact htie z (List.mem_cons_of_mem best hz'') heq

/-! ### Nonempty inputs give nonempty tables -/

/-- A nonempty record set yields a nonempty Branch Summary. -/
theorem branch_summary_ne_nil {rs : List Record} (h : rs ≠ []) : branch_summary rs ≠ [] := by
  rcases List.exists_mem_of_ne_nil rs h with ⟨r, hr⟩
  intro hnil
  have hmem : branchAggRow rs r.branch ∈ branch_summary rs :=
    (branch_summary_perm rs).mem_iff.mpr
      (List.mem_map.mpr ⟨r.branch, List.mem_dedup.mpr (List.mem_map.mpr ⟨r, hr, rfl⟩), rfl⟩)
  rw [hnil] at hmem
  cases hmem

/-- A nonempty record set yields a nonempty Peak Hours table. -/
theorem peak_hours_ne_nil {rs : List Record} (h : rs ≠ []) : peak_hours rs ≠ [] := by
  rcases List.exists_mem_of_ne_nil rs h with ⟨r, hr⟩
  intro hnil
  have hmem : hourAggRow rs r.hour ∈ peak_hours rs :=
    (peak_hours_perm rs).mem_iff.mpr
      (List.mem_map.mpr ⟨r.hour, List.mem_dedup.mpr (List.mem_map.mpr ⟨r, hr, rfl⟩), rfl⟩)
  rw [hnil] at hmem
  cases hmem

/-! ### Remaining shared lemmas -/

/-- `labelLe` coincides with Lean's order on `String`. -/
theorem labelLe_iff_le (s t : String) : labelLe s t ↔ s ≤ t := by
  rw [String.le_iff_toList_le]
  exact Iff.rfl

/-- `labelLt` coincides with Lean's strict order on `String`. -/
theorem labelLt_iff_lt (s t : String) : labelLt s t ↔ s < t := by
  rw [String.lt_iff_toList_lt]
  exact Iff.rfl

/-- Deduplication does not change the underlying finite set. -/
theorem dedup_toFinset {α : Type} [DecidableEq α] (l : List α) :
    l.dedup.toFinset = l.toFinset :=
  List.toFinset.ext (fun _ => List.mem_dedup)

/-- Rounding a pandas float twice is the same as rounding it once. -/
theorem PFloat.roundTwo_roundTwo (p : PFloat) : p.roundTwo.roundTwo = p.roundTwo := by
  cases p <;> simp [PFloat.roundTwo, round2_round2]

/-- Summing pointwise perturbations of size at most `c` moves a list sum
by at most `length * c`. -/
theorem abs_sum_map_sub_le {κ : Type} (f g : κ → ℚ) (c : ℚ) (ks : List κ)
    (h : ∀ b ∈ ks, |f b - g b| ≤ c) :
    |(ks.map f).sum - (ks.map g).sum| ≤ (ks.length : ℚ) * c := by
  induction ks with
  | nil => simp
  | cons b bs ih =>
    simp only [List.map_cons, List.sum_cons, List.length_cons]
    have h1 := h b (List.mem_cons_self b bs)
    have h2 := ih (fun x hx => h x (List.mem_cons_of_mem b hx))
    have h3 : f b + (bs.map f).sum - (g b + (bs.map g).sum)
        = (f b - g b) + ((bs.map f).sum - (bs.map g).sum) := by ring
    rw [h3]
    calc |(f b - g b) + ((bs.map f).sum - (bs.map g).sum)|
        ≤ |f b - g b| + |(bs.map f).sum - (bs.map g).sum| := abs_add _ _
      _ ≤ c + (bs.length : ℚ) * c := add_le_add h1 h2
      _ = ((bs.length : ℚ) + 1) * c := by ring
      _ = ((bs.length + 1 : ℕ) : ℚ) * c := by push_cast; ring

/-- Every record's key is among the distinct values of its column. -/
theorem key_mem_dedup {κ : Type} [DecidableEq κ] (k : Record → κ) {rs : List Record}
    {r : Record} (hr : r ∈ rs) : k r ∈ (rs.map k).dedup :=
  List.mem_dedup.mpr (List.mem_map.mpr ⟨r, hr, rfl⟩)

/-! ### The claims -/

/-- Claim C1 (confirmed): for every non-empty record set, the Branch
Summary's total_appointments column sums exactly to the input's total
appointments; the unrounded per-branch revenue sums partition the input's
total revenue exactly; and the stored (2-decimal rounded) total_revenue
column sums to the input's total revenue up to the stated rounding, off
by at most `1/200` per table row. -/
theorem C1_branch_totals_match (rs : List Record) (h : rs ≠ []) :
    ((branch_summary rs).map BranchRow.total_appointments).sum
      = (rs.map Record.appointments).sum ∧
    (((rs.map Record.branch).dedup).map
        (fun b => sumRev (keyGroup Record.branch rs b))).sum
      = (rs.map Record.revenue).sum ∧
    |((branch_summary rs).map BranchRow.total_revenue).sum
        - (rs.map Record.revenue).sum|
      ≤ ((branch_summary rs).length : ℚ) * (1/200) := by
  have hcov : ∀ r ∈ rs, r.branch ∈ (rs.map Record.branch).dedup :=
    fun r hr => key_mem_dedup Record.branch hr
  have hrev : (((rs.map Record.branch).dedup).map
      (fun b => sumRev (keyGroup Record.branch rs b))).sum = (rs.map Record.revenue).sum :=
    sum_map_keyGroup Record.branch Record.revenue _ rs (List.nodup_dedup _) hcov
  refine ⟨?_, hrev, ?_⟩
  · rw [((branch_summary_perm rs).map BranchRow.total_appointments).sum_eq, List.map_map]
    exact sum_map_keyGroup Record.branch Record.appointments _ rs (List.nodup_dedup _) hcov
  · have hlen : ((branch_summary rs).length : ℚ)
        = (((rs.map Record.branch).dedup).length : ℚ) := by
      rw [(branch_summary_perm rs).length_eq, List.length_map]
    have hsum : ((branch_summary rs).map BranchRow.total_revenue).sum
        = (((rs.map Record.branch).dedup).map
            (fun b => round2 (sumRev (keyGroup Record.branch rs b)))).sum := by
      rw [((branch_summary_perm rs).map BranchRow.total_revenue).sum_eq, List.map_map]
      rfl
    rw [hsum, hlen, ← hrev]
    exact abs_sum_map_sub_le _ _ _ _
      (fun b _ => abs_round2_sub_le (sumRev (keyGroup Record.branch rs b)))

/-- Witness for C1 at a concrete two-record input. -/
theorem C1_witness : ([wrecA, wrecB] : List Record) ≠ [] ∧
    (((branch_summary [wrecA, wrecB]).map BranchRow.total_appointments).sum
      = ([wrecA, wrecB].map Record.appointments).sum ∧
    ((([wrecA, wrecB].map Record.branch).dedup).map
        (fun b => sumRev (keyGroup Record.branch [wrecA, wrecB] b))).sum
      = ([wrecA, wrecB].map Record.revenue).sum ∧
    |((branch_summary [wrecA, wrecB]).map BranchRow.total_revenue).sum
        - ([wrecA, wrecB].map Record.revenue).sum|
      ≤ ((branch_summary [wrecA, wrecB]).length : ℚ) * (1/200)) :=
  ⟨by with_unfolding_all decide,
    C1_branch_totals_match [wrecA, wrecB] (by with_unfolding_all decide)⟩

/-- Claim C2 (confirmed): for every non-empty record set, each of the
four aggregate tables has duplicate-free group keys whose set is exactly
the set of distinct values of the grouping column in the input. -/
theorem C2_keys_exact (rs : List Record) (h : rs ≠ []) :
    (((branch_summary rs).map BranchRow.branch).Nodup ∧
      ((branch_summary rs).map BranchRow.branch).toFinset
        = (rs.map Record.branch).toFinset) ∧
    (((peak_hours rs).map HourRow.hour).Nodup ∧
      ((peak_hours rs).map HourRow.hour).toFinset = (rs.map Record.hour).toFinset) ∧
    (((service_breakdown rs).map ServiceRow.service_type).Nodup ∧
      ((service_breakdown rs).map ServiceRow.service_type).toFinset
        = (rs.map Record.service_type).toFinset) ∧
    (((daily_trend rs).map DayRow.date).Nodup ∧
      ((daily_trend rs).map DayRow.date).toFinset = (rs.map Record.date).toFinset) := by
  refine ⟨⟨?_, ?_⟩, ⟨?_, ?_⟩, ⟨?_, ?_⟩, ?_, ?_⟩
  · exact (branch_summary_keys_perm rs).nodup_iff.mpr (List.nodup_dedup _)
  · exact (List.toFinset_eq_of_perm _ _ (branch_summary_keys_perm rs)).trans
      (dedup_toFinset _)
  · exact (peak_hours_keys_perm rs).nodup_iff.mpr (List.nodup_dedup _)
  · exact (List.toFinset_eq_of_perm _ _ (peak_hours_keys_perm rs)).trans (dedup_toFinset _)
  · exact (service_breakdown_keys_perm rs).nodup_iff.mpr (List.nodup_dedup _)
  · exact (List.toFinset_eq_of_perm _ _ (service_breakdown_keys_perm rs)).trans
      (dedup_toFinset _)
  · exact (daily_trend_keys_perm rs).nodup_iff.mpr (List.nodup_dedup _)
  · exact (List.toFinset_eq_of_perm _ _ (daily_trend_keys_perm rs)).trans (dedup_toFinset _)

/-- Witness for C2 at a concrete two-record input. -/
theorem C2_witness : ([wrecA, wrecB] : List Record) ≠ [] ∧
    ((((branch_summary [wrecA, wrecB]).map BranchRow.branch).Nodup ∧
      ((branch_summary [wrecA, wrecB]).map BranchRow.branch).toFinset
        = ([wrecA, wrecB].map Record.branch).toFinset) ∧
    (((peak_hours [wrecA, wrecB]).map HourRow.hour).Nodup ∧
      ((peak_hours [wrecA, wrecB]).map HourRow.hour).toFinset
        = ([wrecA, wrecB].map Record.hour).toFinset) ∧
    (((service_breakdown [wrecA, wrecB]).map ServiceRow.service_type).Nodup ∧
      ((service_breakdown [wrecA, wrecB]).map ServiceRow.service_type).toFinset
        = ([wrecA, wrecB].map Record.service_type).toFinset) ∧
    (((daily_trend [wrecA, wrecB]).map DayRow.date).Nodup ∧
      ((daily_trend [wrecA, wrecB]).map DayRow.date).toFinset
        = ([wrecA, wrecB].map Record.date).toFinset)) :=
  ⟨by with_unfolding_all decide,
    C2_keys_exact [wrecA, wrecB] (by with_unfolding_all decide)⟩

/-- Counterexample to claim C3 as stated: a branch whose appointments sum
to zero while its revenue is positive stores the infinity marker, not a
null/NaN marker, in revenue_per_appointment (pandas `x / 0 = inf` for
`x > 0`). -/
theorem C3_counterexample :
    (branch_summary [c3rec]).map
        (fun row => (row.total_appointments, row.revenue_per_appointment))
      = [(0, PFloat.inf)] ∧ PFloat.inf ≠ PFloat.nan := by
  with_unfolding_all decide

/-- Claim C3 (amended): for a record set with nonnegative revenues, every
Branch Summary row with nonzero total_appointments stores
`round2 (total_revenue / total_appointments)` (the ratio of the stored,
already-rounded fields); a row with zero total_appointments stores `nan`
when its total_revenue is zero and `inf` otherwise — a designed marker
value, never a crash (the embedding is a total function). -/
theorem C3_revenue_per_appointment (rs : List Record)
    (hnn : ∀ r ∈ rs, 0 ≤ r.revenue) (row : BranchRow) (hrow : row ∈ branch_summary rs) :
    (row.total_appointments ≠ 0 →
      row.revenue_per_appointment
        = PFloat.num (round2 (row.total_revenue / (row.total_appointments : ℚ)))) ∧
    (row.total_appointments = 0 →
      row.revenue_per_appointment
        = (if row.total_revenue = 0 then PFloat.nan else PFloat.inf)) := by
  rcases mem_branch_summary hrow with ⟨heq, _⟩
  constructor
  · intro hta
    rw [heq] at hta ⊢
    have hta' : sumApp (keyGroup Record.branch rs row.branch) ≠ 0 := hta
    show (pdivNat (round2 (sumRev (keyGroup Record.branch rs row.branch)))
        (sumApp (keyGroup Record.branch rs row.branch))).roundTwo = _
    unfold pdivNat
    rw [if_neg hta']
    rfl
  · intro hta
    have hrev0 : 0 ≤ sumRev (keyGroup Record.branch rs row.branch) := by
      apply List.sum_nonneg
      intro x hx
      rcases List.mem_map.mp hx with ⟨r, hr, rfl⟩
      exact hnn r (List.mem_filter.mp hr).1
    have h0 : 0 ≤ round2 (sumRev (keyGroup Record.branch rs row.branch)) :=
      round2_nonneg hrev0
    rw [heq] at hta ⊢
    have hta' : sumApp (keyGroup Record.branch rs row.branch) = 0 := hta
    show (pdivNat (round2 (sumRev (keyGroup Record.branch rs row.branch)))
        (sumApp (keyGroup Record.branch rs row.branch))).roundTwo
      = (if round2 (sumRev (keyGroup Record.branch rs row.branch)) = 0
          then PFloat.nan else PFloat.inf)
    unfold pdivNat
    rw [if_pos hta']
    by_cases hz : round2 (sumRev (keyGroup Record.branch rs row.branch)) = 0
    · rw [if_pos hz, if_pos hz]
      rfl
    · rw [if_neg hz, if_pos (lt_of_le_of_ne h0 (Ne.symm hz)), if_neg hz]
      rfl

/-- Witness for C3 at a concrete one-record input. -/
theorem C3_witness :
    (∀ r ∈ ([wrecA] : List Record), 0 ≤ r.revenue) ∧
    (⟨"A", 2, 100, 100, PFloat.num 50⟩ : BranchRow) ∈ branch_summary [wrecA] ∧
    ((((⟨"A", 2, 100, 100, PFloat.num 50⟩ : BranchRow)).total_appointments ≠ 0 →
      (⟨"A", 2, 100, 100, PFloat.num 50⟩ : BranchRow).revenue_per_appointment
        = PFloat.num (round2 ((⟨"A", 2, 100, 100, PFloat.num 50⟩ : BranchRow).total_revenue
            / ((⟨"A", 2, 100, 100, PFloat.num 50⟩ : BranchRow).total_appointments : ℚ)))) ∧
    ((⟨"A", 2, 100, 100, PFloat.num 50⟩ : BranchRow).total_appointments = 0 →
      (⟨"A", 2, 100, 100, PFloat.num 50⟩ : BranchRow).revenue_per_appointment
        = (if (⟨"A", 2, 100, 100, PFloat.num 50⟩ : BranchRow).total_revenue = 0
            then PFloat.nan else PFloat.inf))) :=
  ⟨by with_unfolding_all decide, by with_unfolding_all decide,
    C3_revenue_per_appointment [wrecA] (by with_unfolding_all decide)
      ⟨"A", 2, 100, 100, PFloat.num 50⟩ (by with_unfolding_all decide)⟩

/-- Counterexample to claim C4 as stated: on the empty record set the KPI
derivations fail with pandas' ValueError (idxmax of an empty series); the
repository defines no EmptyDatasetError class, and no such error is
raised. -/
theorem C4_counterexample :
    best_branch [] = Except.error PyError.valueError ∧
    peak_hour [] = Except.error PyError.valueError ∧
    (Except.error PyError.valueError : Except PyError String)
      ≠ Except.error PyError.emptyDatasetError ∧
    (Except.error PyError.valueError : Except PyError Nat)
      ≠ Except.error PyError.emptyDatasetError := by
  with_unfolding_all decide

/-- Claim C4 (amended): on the empty record set all four aggregate tables
are empty, and the extremum-based KPI derivations raise an error — the
pandas ValueError from idxmax on an empty series, since the repository
defines no EmptyDatasetError — rather than returning any fabricated key. -/
theorem C4_empty_dataset :
    branch_summary [] = [] ∧ peak_hours [] = [] ∧ service_breakdown [] = [] ∧
    daily_trend [] = [] ∧ best_branch [] = Except.error PyError.valueError ∧
    peak_hour [] = Except.error PyError.valueError := by
  with_unfolding_all decide

/-- Counterexample to claim C5 as stated: two branches tie at revenue 100
and the Branch Summary lists B before A although A sorts before B — ties
are not broken by ascending branch label. -/
theorem C5_counterexample :
    (branch_summary [wrecA, c5recB]).map (fun row => (row.branch, row.total_revenue))
      = [("B", 100), ("A", 100)] ∧ labelLt "A" "B" := by
  with_unfolding_all decide

/-- Claim C5 (amended): the Branch Summary is sorted descending by
total_revenue (every earlier row's total_revenue is at least every later
row's), and rows with equal total_revenue appear in descending — not
ascending — branch-label order, because `sort_values(ascending=False)`
reverses a stable ascending ordering of the groupby output. -/
theorem C5_sorted_descending (rs : List Record) :
    (branch_summary rs).Pairwise (fun a b =>
      b.total_revenue ≤ a.total_revenue ∧
      (a.total_revenue = b.total_revenue → labelLt b.branch a.branch)) :=
  branch_summary_pairwise rs

/-- Counterexample to claim C6 as stated: service_breakdown and
daily_trend apply no rounding, so a revenue of 3/1000 is stored exactly,
not rounded to two decimals. -/
theorem C6_counterexample :
    (service_breakdown [c6rec]).map ServiceRow.total_revenue = [3/1000] ∧
    (daily_trend [c6rec]).map DayRow.daily_revenue = [3/1000] ∧
    round2 (3/1000) ≠ 3/1000 := by
  with_unfolding_all decide

/-- Claim C6 (amended): in branch_summary and peak_hours every non-count
numeric field is a two-decimal rounded value (a fixed point of rounding),
and counts stay integral (they are `Nat`-typed in the embedding, as
pandas keeps int64 columns unrounded); but service_breakdown and
daily_trend apply no rounding: their revenue fields are the exact group
sums. -/
theorem C6_rounding (rs : List Record) :
    (∀ row ∈ branch_summary rs,
        round2 row.total_revenue = row.total_revenue ∧
        round2 row.avg_daily_revenue = row.avg_daily_revenue ∧
        row.revenue_per_appointment.roundTwo = row.revenue_per_appointment) ∧
    (∀ row ∈ peak_hours rs,
        round2 row.avg_appointments = row.avg_appointments ∧
        round2 row.avg_revenue = row.avg_revenue) ∧
    (∀ row ∈ service_breakdown rs,
        row.total_revenue = sumRev (keyGroup Record.service_type rs row.service_type)) ∧
    (∀ row ∈ daily_trend rs,
        row.daily_revenue = sumRev (keyGroup Record.date rs row.date)) := by
  refine ⟨?_, ?_, ?_, ?_⟩
  · intro row hrow
    rcases mem_branch_summary hrow with ⟨heq, _⟩
    rw [heq]
    exact ⟨round2_round2 _, round2_round2 _, PFloat.roundTwo_roundTwo _⟩
  · intro row hrow
    rcases mem_peak_hours hrow with ⟨heq, _⟩
    rw [heq]
    exact ⟨round2_round2 _, round2_round2 _⟩
  · intro row hrow
    rcases mem_service_breakdown hrow with ⟨heq, _⟩
    rw [heq]
    rfl
  · intro row hrow
    rcases mem_daily_trend hrow with ⟨heq, _⟩
    rw [heq]
    rfl

/-- Witness for C6 at a concrete one-record input. -/
theorem C6_witness :
    (⟨"A", 2, 100, 100, PFloat.num 50⟩ : BranchRow) ∈ branch_summary [wrecA] ∧
    (round2 (⟨"A", 2, 100, 100, PFloat.num 50⟩ : BranchRow).total_revenue
        = (⟨"A", 2, 100, 100, PFloat.num 50⟩ : BranchRow).total_revenue ∧
      round2 (⟨"A", 2, 100, 100, PFloat.num 50⟩ : BranchRow).avg_daily_revenue
        = (⟨"A", 2, 100, 100, PFloat.num 50⟩ : BranchRow).avg_daily_revenue ∧
      (⟨"A", 2, 100, 100, PFloat.num 50⟩ : BranchRow).revenue_per_appointment.roundTwo
        = (⟨"A", 2, 100, 100, PFloat.num 50⟩ : BranchRow).revenue_per_appointment) :=
  ⟨by with_unfolding_all decide,
    (C6_rounding [wrecA]).1 ⟨"A", 2, 100, 100, PFloat.num 50⟩ (by with_unfolding_all decide)⟩

/-- Claim C7 (confirmed): for a record set whose hours lie in 0..23, the
Peak Hours table is strictly ascending by hour, and every row's hour lies
in 0..23, occurs in the input (absent hours are not zero-filled), and its
avg_appointments is the two-decimal rounding of the mean of the
appointments of exactly the records with that hour. -/
theorem C7_peak_hours_table (rs : List Record) (hh : ∀ r ∈ rs, r.hour ≤ 23) :
    (peak_hours rs).Pairwise (fun a b => a.hour < b.hour) ∧
    (∀ row ∈ peak_hours rs,
      row.hour ≤ 23 ∧ row.hour ∈ rs.map Record.hour ∧
      row.avg_appointments = round2 (meanApp (keyGroup Record.hour rs row.hour))) := by
  refine ⟨peak_hours_pairwise rs, ?_⟩
  intro row hrow
  rcases mem_peak_hours hrow with ⟨heq, hmem⟩
  refine ⟨?_, hmem, ?_⟩
  · rcases List.mem_map.mp hmem with ⟨r, hr, hre⟩
    rw [← hre]
    exact hh r hr
  · rw [heq]
    rfl

/-- Witness for C7 at a concrete two-record input. -/
theorem C7_witness :
    (∀ r ∈ ([wrecA, wrecB] : List Record), r.hour ≤ 23) ∧
    ((peak_hours [wrecA, wrecB]).Pairwise (fun a b => a.hour < b.hour) ∧
    (∀ row ∈ peak_hours [wrecA, wrecB],
      row.hour ≤ 23 ∧ row.hour ∈ [wrecA, wrecB].map Record.hour ∧
      row.avg_appointments
        = round2 (meanApp (keyGroup Record.hour [wrecA, wrecB] row.hour)))) :=
  ⟨by with_unfolding_all decide,
    C7_peak_hours_table [wrecA, wrecB] (by with_unfolding_all decide)⟩

/-- Counterexample to claim C8 as stated: a readable file that has a
`date` column but no `branch` column loads successfully (pandas validates
only the `parse_dates` column), and an absent file raises
FileNotFoundError, not any DataLoadError — no such class exists in the
repository. -/
theorem C8_counterexample :
    load_data (some c8csv) = Except.ok c8csv ∧
    "branch" ∉ c8csv.header ∧
    load_data none = Except.error PyError.fileNotFoundError ∧
    PyError.fileNotFoundError ≠ PyError.dataLoadError := by
  with_unfolding_all decide

/-- Claim C8 (amended): load_data fails with FileNotFoundError when the
file is absent and with ValueError when the `date` column named in
`parse_dates` is missing; the repository defines no DataLoadError. When
the `date` column is present the load succeeds even if other required
columns are missing or cells are malformed — such defects surface only in
later aggregation. -/
theorem C8_load_data (file : Option CSV) :
    (file = none → load_data file = Except.error PyError.fileNotFoundError) ∧
    (∀ csv, file = some csv →
      ("date" ∈ csv.header → load_data file = Except.ok csv) ∧
      ("date" ∉ csv.header → load_data file = Except.error PyError.valueError)) := by
  constructor
  · intro h
    rw [h]
    rfl
  · intro csv h
    constructor
    · intro hd
      rw [h]
      show (if "date" ∈ csv.header then Except.ok csv else Except.error PyError.valueError)
        = Except.ok csv
      rw [if_pos hd]
    · intro hd
      rw [h]
      show (if "date" ∈ csv.header then Except.ok csv else Except.error PyError.valueError)
        = Except.error PyError.valueError
      rw [if_neg hd]

/-- Witness for C8 at a concrete parsed file. -/
theorem C8_witness :
    "date" ∈ c8csv.header ∧ load_data (some c8csv) = Except.ok c8csv :=
  ⟨by with_unfolding_all decide,
    ((C8_load_data (some c8csv)).2 c8csv rfl).1 (by with_unfolding_all decide)⟩

/-- Counterexample to claim C9 as stated: the orchestrator's trace never
prints the Daily Trend table — only three of the four aggregates reach
the console. -/
theorem C9_counterexample :
    Event.printTable TableId.dailyTrendT ∉ mainEvents ∧
    (mainEvents.filter Event.isPrint).length = 3 := by
  decide

/-- Claim C9 (amended): a successful run starts with the load
confirmation, prints exactly three aggregate tables — Branch Summary,
Peak Hours and Service Breakdown, in that order; Daily Trend is never
printed — and all of those prints happen before any CSV report is
written, while all three CSV writes precede the dashboard-image save. -/
theorem C9_console_order :
    mainEvents.head? = some Event.loadConfirm ∧
    mainEvents.filter Event.isPrint
      = [Event.printTable TableId.branchSummaryT, Event.printTable TableId.peakHoursT,
         Event.printTable TableId.serviceBreakdownT] ∧
    (mainEvents.takeWhile (fun e => !e.isWrite)).filter Event.isPrint
      = [Event.printTable TableId.branchSummaryT, Event.printTable TableId.peakHoursT,
         Event.printTable TableId.serviceBreakdownT] ∧
    (mainEvents.takeWhile (fun e => decide (e ≠ Event.saveImage))).filter Event.isWrite
      = [Event.writeCSV TableId.branchSummaryT, Event.writeCSV TableId.peakHoursT,
         Event.writeCSV TableId.serviceBreakdownT] := by
  decide

/-- Claim C10 (confirmed): for a non-empty record set, best_branch is the
branch of the first row of the revenue-descending Branch Summary (the
first tied branch in table row order, since idxmax keeps the earliest
maximum), and peak_hour is the hour of a Peak Hours row attaining the
maximal avg_appointments such that every tying row has a hour at least as
large — the smallest tied hour, the table being ascending by hour. -/
theorem C10_kpi_tie_break (rs : List Record) (h : rs ≠ []) :
    (∃ row, (branch_summary rs).head? = some row ∧
      best_branch rs = Except.ok row.branch ∧
      ∀ row' ∈ branch_summary rs, row'.total_revenue ≤ row.total_revenue) ∧
    (∃ row ∈ peak_hours rs,
      peak_hour rs = Except.ok row.hour ∧
      (∀ row' ∈ peak_hours rs, row'.avg_appointments ≤ row.avg_appointments) ∧
      (∀ row' ∈ peak_hours rs,
        row'.avg_appointments = row.avg_appointments → row.hour ≤ row'.hour)) := by
  constructor
  · cases hbs : branch_summary rs with
    | nil => exact absurd hbs (branch_summary_ne_nil h)
    | cons row0 rest =>
      have hpw := branch_summary_pairwise rs
      rw [hbs] at hpw
      rcases List.pairwise_cons.mp hpw with ⟨hhead, _⟩
      have hmax : idxmaxGo (row0.branch, row0.total_revenue)
          (rest.map (fun row => (row.branch, row.total_revenue)))
          = (row0.branch, row0.total_revenue) := by
        apply idxmaxGo_of_max
        intro y hy
        rcases List.mem_map.mp hy with ⟨row', hr', rfl⟩
        exact (hhead row' hr').1
      refine ⟨row0, rfl, ?_, ?_⟩
      · unfold best_branch
        rw [hbs, List.map_cons]
        simp only [idxmax, hmax]
      · intro row' hr'
        rcases List.mem_cons.mp hr' with rfl | hr''
        · exact le_refl _
        · exact (hhead row' hr'').1
  · cases hph : peak_hours rs with
    | nil => exact absurd hph (peak_hours_ne_nil h)
    | cons row0 rest =>
      have hpw := peak_hours_pairwise rs
      rw [hph] at hpw
      have hkeys : ((row0.hour, row0.avg_appointments)
          :: rest.map (fun row => (row.hour, row.avg_appointments))).Pairwise
          (fun a b => a.1 < b.1) := by
        have hmapped : ((row0 :: rest).map
            (fun row => (row.hour, row.avg_appointments))).Pairwise
            (fun a b => a.1 < b.1) := by
          rw [List.pairwise_map]
          exact hpw
        simpa using hmapped
      rcases idxmaxGo_spec (rest.map (fun row => (row.hour, row.avg_appointments)))
          (row0.hour, row0.avg_appointments) hkeys with ⟨hmem, hmax, htie⟩
      have hmem' : idxmaxGo (row0.hour, row0.avg_appointments)
          (rest.map (fun row => (row.hour, row.avg_appointments)))
          ∈ (row0 :: rest).map (fun row => (row.hour, row.avg_appointments)) := by
        simpa using hmem
      rcases List.mem_map.mp hmem' with ⟨row, hrow, hpair⟩
      refine ⟨row, hrow, ?_, ?_, ?_⟩
      · unfold peak_hour
        rw [hph, List.map_cons]
        simp only [idxmax, ← hpair]
      · intro row' hr'
        have hin : (row'.hour, row'.avg_appointments) ∈ (row0.hour, row0.avg_appointments)
            :: rest.map (fun row => (row.hour, row.avg_appointments)) := by
          have : (row'.hour, row'.avg_appointments)
              ∈ (row0 :: rest).map (fun row => (row.hour, row.avg_appointments)) :=
            List.mem_map.mpr ⟨row', hr', rfl⟩
          simpa using this
        have hv := hmax _ hin
        rw [← hpair] at hv
        exact hv
      · intro row' hr' heqv
        have hin : (row'.hour, row'.avg_appointments) ∈ (row0.hour, row0.avg_appointments)
            :: rest.map (fun row => (row.hour, row.avg_appointments)) := by
          have : (row'.hour, row'.avg_appointments)
              ∈ (row0 :: rest).map (fun row => (row.hour, row.avg_appointments)) :=
            List.mem_map.mpr ⟨row', hr', rfl⟩
          simpa using this
        have hv := htie _ hin (by rw [← hpair]; exact heqv)
        rw [← hpair] at hv
        exact hv

/-- Witness for C10 at a concrete two-record input. -/
theorem C10_witness : ([wrecA, wrecB] : List Record) ≠ [] ∧
    ((∃ row, (branch_summary [wrecA, wrecB]).head? = some row ∧
      best_branch [wrecA, wrecB] = Except.ok row.branch ∧
      ∀ row' ∈ branch_summary [wrecA, wrecB],
        row'.total_revenue ≤ row.total_revenue) ∧
    (∃ row ∈ peak_hours [wrecA, wrecB],
      peak_hour [wrecA, wrecB] = Except.ok row.hour ∧
      (∀ row' ∈ peak_hours [wrecA, wrecB],
        row'.avg_appointments ≤ row.avg_appointments) ∧
      (∀ row' ∈ peak_hours [wrecA, wrecB],
        row'.avg_appointments = row.avg_appointments → row.hour ≤ row'.hour))) :=
  ⟨by with_unfolding_all decide,
    C10_kpi_tie_break [wrecA, wrecB] (by with_unfolding_all decide)⟩
